import Mathlib

/-!
Verification of the OSL shading-compilation core of `intern/cycles/render/osl.cpp`
(class `OSLCompiler` and `OSLShaderManager`), against the natural-language
specification of the shading-compilation subsystem.

The shallow embedding below follows the C++ source.  Shader graphs are built
from pointers in C++; node identity (pointer identity, used by the
`ShaderNodeSet` ordered sets) is modelled by a `Nat` id, and the graph itself
by a total function from ids to node records, matching the C++ situation in
which every `ShaderInput::link->parent` pointer refers to an actual node.
-/

namespace CyclesOSL

/-- Shading contexts (`ShaderType` enum, `kernel/svm/svm_types.h`):
the four compilation targets `SHADER_TYPE_SURFACE`, `SHADER_TYPE_VOLUME`,
`SHADER_TYPE_DISPLACEMENT`, `SHADER_TYPE_BUMP`. -/
inductive ShaderType where
  | Surface
  | Volume
  | Displacement
  | Bump
deriving DecidableEq, Repr

/-- Node role tag (`ShaderNodeSpecialType`): `node_skip_input` only
distinguishes `SHADER_SPECIAL_TYPE_OUTPUT` and `SHADER_SPECIAL_TYPE_BUMP`;
every other enumerator behaves like `plain` here. -/
inductive SpecialType where
  | plain
  | output
  | bump
deriving DecidableEq, Repr

/-- One `ShaderInput` socket of a node: its name, whether the
`SocketType::SVM_INTERNAL` flag is set on it, and `link` — the id of
`link->parent` (the upstream source node) when the socket is connected,
`none` when it is unlinked and uses its constant default. -/
structure ShaderInput where
  name : String
  internal : Bool
  link : Option Nat
deriving DecidableEq, Repr

/-- One `ShaderNode`: its special-type tag and its ordered input sockets.
Output sockets carry no data relevant to the verified routines and are
omitted. -/
structure ShaderNode where
  special : SpecialType
  inputs : List ShaderInput
deriving DecidableEq, Repr

/-- A shader graph, as the compiler sees it: a total map from node ids to
nodes.  In C++ every link's `parent` pointer is a valid node, which the
total function models directly. -/
def ShaderGraph : Type := Nat → ShaderNode

/-- Special type of the source node of a link (`input->link->parent->special_type`). -/
def linkSpecial (g : ShaderGraph) (s : Nat) : SpecialType :=
  (g s).special

/-- Embedding of `OSLCompiler::node_skip_input` (osl.cpp lines 678-705),
with `current_type` the compiler's current shading context.  The source is
an if / else-if chain: the SVM_INTERNAL test first, then the Output-node
name rules, then the Bump-node "Height" rule, and only for nodes that are
neither Output nor Bump the Displacement-context bump-source rule. -/
def node_skip_input (g : ShaderGraph) (current_type : ShaderType)
    (node : ShaderNode) (input : ShaderInput) : Bool :=
  if input.internal then true
  else if node.special == SpecialType.output then
    (input.name == "Surface" && current_type != ShaderType.Surface) ||
    (input.name == "Volume" && current_type != ShaderType.Volume) ||
    (input.name == "Displacement" && current_type != ShaderType.Displacement) ||
    (input.name == "Normal" && current_type != ShaderType.Bump)
  else if node.special == SpecialType.bump then
    input.name == "Height"
  else if current_type == ShaderType.Displacement then
    match input.link with
    | some s => linkSpecial g s == SpecialType.bump
    | none => false
  else false

/-- The skip-input policy exactly as the claim states it: the plain
disjunction of the four rules of the spec's policy table, with the
bump-source rule applying to "any node".  This definition follows the
claim's words, to be compared with `node_skip_input` from the source. -/
def skip_rules_spec (g : ShaderGraph) (current_type : ShaderType)
    (node : ShaderNode) (input : ShaderInput) : Bool :=
  input.internal ||
  (node.special == SpecialType.output &&
    ((input.name == "Surface" && current_type != ShaderType.Surface) ||
     (input.name == "Volume" && current_type != ShaderType.Volume) ||
     (input.name == "Displacement" && current_type != ShaderType.Displacement) ||
     (input.name == "Normal" && current_type != ShaderType.Bump))) ||
  (node.special == SpecialType.bump && input.name == "Height") ||
  (current_type == ShaderType.Displacement &&
    (match input.link with
     | some s => linkSpecial g s == SpecialType.bump
     | none => false))

/-- The skip-input policy as amended: identical to `skip_rules_spec` except
that the Displacement-context bump-source rule applies only to nodes that
are neither the Output node nor a Bump node, reflecting the else-if chain
of the source. -/
def skip_rules_amended (g : ShaderGraph) (current_type : ShaderType)
    (node : ShaderNode) (input : ShaderInput) : Bool :=
  input.internal ||
  (node.special == SpecialType.output &&
    ((input.name == "Surface" && current_type != ShaderType.Surface) ||
     (input.name == "Volume" && current_type != ShaderType.Volume) ||
     (input.name == "Displacement" && current_type != ShaderType.Displacement) ||
     (input.name == "Normal" && current_type != ShaderType.Bump))) ||
  (node.special == SpecialType.bump && input.name == "Height") ||
  (node.special != SpecialType.output && node.special != SpecialType.bump &&
    current_type == ShaderType.Displacement &&
    (match input.link with
     | some s => linkSpecial g s == SpecialType.bump
     | none => false))

/-- A concrete graph for the C1 counterexample: node 0 is a Bump node with
no inputs; all other ids are blank plain nodes. -/
def gC1 : ShaderGraph := fun n =>
  match n with
  | 0 => { special := SpecialType.bump, inputs := [] }
  | _ => { special := SpecialType.plain, inputs := [] }

/-- The node under test for the C1 counterexample: a Bump node (think of a
second, downstream Bump node) with a single non-internal input named
"Strength" linked from node 0. -/
def nC1 : ShaderNode :=
  { special := SpecialType.bump,
    inputs := [{ name := "Strength", internal := false, link := some 0 }] }

/-- The input under test for the C1 counterexample. -/
def iC1 : ShaderInput := { name := "Strength", internal := false, link := some 0 }

/-- C1 (counterexample): the claim "node_skip_input returns true exactly when
one of the spec's skip rules applies" fails at a concrete input.  In the
Displacement context, for a Bump node with a non-internal input "Strength"
whose link source is a Bump node, rule (4) of the claim applies (any node,
context = Displacement, source is a Bump node) so the claimed policy skips
the input, but the source's else-if chain takes the Bump-node branch,
tests the name against "Height" only, and returns false. -/
theorem node_skip_input_rule4_cex :
    node_skip_input gC1 ShaderType.Displacement nC1 iC1 = false ∧
    skip_rules_spec gC1 ShaderType.Displacement nC1 iC1 = true := by
  constructor <;> decide

/-- C1 (amended): `node_skip_input` returns true exactly when one of the
skip rules applies, where the Displacement-context bump-source rule (4) is
restricted to nodes that are neither the designated Output node nor a Bump
node — the precedence imposed by the source's else-if chain.  All other
rules are as the claim states them. -/
theorem node_skip_input_eq_amended_rules (g : ShaderGraph) (t : ShaderType)
    (node : ShaderNode) (input : ShaderInput) :
    node_skip_input g t node input = skip_rules_amended g t node input := by
  unfold node_skip_input skip_rules_amended
  cases hin : input.internal <;> cases hs : node.special <;>
    simp [hs] <;> cases hl : input.link <;> cases t <;>
      simp +decide [beq_eq_decide, bne]

/-! Shared texture-system and shading-system singletons
(`OSLShaderManager::texture_system_init` / `texture_system_free`, osl.cpp
lines 219-252, and `shading_system_init` / `shading_system_free`, lines
254-347).  The static `ts_shared` / `ss_shared` pointers are modelled by a
Bool recording non-NULL-ness; the user counters are C++ `int`s, modelled
by `Int`.  The per-manager member pointers (`ts`, `ss`, `services`), the
attribute setup and closure registration performed on construction, and
the mutexes, are calls into the external OSL/OIIO libraries or concurrency
artefacts and are not part of the verified state. -/

/-- Static state of the shared texture system: `ts_shared != NULL` and
`ts_shared_users`. -/
structure TextureSystemState where
  ts_shared : Bool
  ts_shared_users : Int
deriving DecidableEq, Repr

/-- Static state of the shared shading system: `ss_shared != NULL` (the
`services_shared` pointer is created and destroyed together with it) and
`ss_shared_users`. -/
structure ShadingSystemState where
  ss_shared : Bool
  ss_shared_users : Int
deriving DecidableEq, Repr

/-- Embedding of `OSLShaderManager::texture_system_init`: construct the
shared texture system when the user count is zero, then increment the
count. -/
def texture_system_init (s : TextureSystemState) : TextureSystemState :=
  let s := if s.ts_shared_users == 0 then { s with ts_shared := true } else s
  { s with ts_shared_users := s.ts_shared_users + 1 }

/-- Embedding of `OSLShaderManager::texture_system_free`: decrement the
user count, then destroy the shared texture system when the count has
reached zero. -/
def texture_system_free (s : TextureSystemState) : TextureSystemState :=
  let s := { s with ts_shared_users := s.ts_shared_users - 1 }
  if s.ts_shared_users == 0 then { s with ts_shared := false } else s

/-- Embedding of `OSLShaderManager::shading_system_init`: construct the
shared shading system (and render services) when the user count is zero,
then increment the count. -/
def shading_system_init (s : ShadingSystemState) : ShadingSystemState :=
  let s := if s.ss_shared_users == 0 then { s with ss_shared := true } else s
  { s with ss_shared_users := s.ss_shared_users + 1 }

/-- Embedding of `OSLShaderManager::shading_system_free`: decrement the
user count, then destroy the shared shading system when the count has
reached zero. -/
def shading_system_free (s : ShadingSystemState) : ShadingSystemState :=
  let s := { s with ss_shared_users := s.ss_shared_users - 1 }
  if s.ss_shared_users == 0 then { s with ss_shared := false } else s

/-- The invariant of the claim for the texture system: the shared instance
is non-NULL exactly when its user count is positive. -/
def ts_inv (s : TextureSystemState) : Prop :=
  s.ts_shared = true ↔ 0 < s.ts_shared_users

/-- The invariant of the claim for the shading system. -/
def ss_inv (s : ShadingSystemState) : Prop :=
  s.ss_shared = true ↔ 0 < s.ss_shared_users

/-- C9: the shared backend singletons are reference-counted with
construct-on-first-acquire and destroy-on-last-release.  Both init
functions construct exactly when the user count is zero and always
increment it; both free functions always decrement and destroy exactly
when the count reaches zero; and the invariant "shared instance non-NULL
iff user count positive" is preserved by every init and every free. -/
theorem shared_singletons_refcounted (t : TextureSystemState)
    (s : ShadingSystemState) (ht : ts_inv t) (hs : ss_inv s) :
    (texture_system_init t).ts_shared_users = t.ts_shared_users + 1 ∧
    (texture_system_free t).ts_shared_users = t.ts_shared_users - 1 ∧
    (shading_system_init s).ss_shared_users = s.ss_shared_users + 1 ∧
    (shading_system_free s).ss_shared_users = s.ss_shared_users - 1 ∧
    (texture_system_init t).ts_shared = (t.ts_shared_users == 0 || t.ts_shared) ∧
    (texture_system_free t).ts_shared = (t.ts_shared_users - 1 != 0 && t.ts_shared) ∧
    (shading_system_init s).ss_shared = (s.ss_shared_users == 0 || s.ss_shared) ∧
    (shading_system_free s).ss_shared = (s.ss_shared_users - 1 != 0 && s.ss_shared) ∧
    ts_inv (texture_system_init t) ∧ ts_inv (texture_system_free t) ∧
    ss_inv (shading_system_init s) ∧ ss_inv (shading_system_free s) := by
  obtain ⟨tb, tc⟩ := t
  obtain ⟨sb, sc⟩ := s
  simp only [ts_inv, ss_inv, texture_system_init, texture_system_free,
    shading_system_init, shading_system_free, beq_iff_eq, bne] at *
  cases tb <;> cases sb <;>
    refine ⟨?_, ?_, ?_, ?_, ?_, ?_, ?_, ?_, ?_, ?_, ?_, ?_⟩ <;>
    split_ifs <;> simp_all <;> omega

/-- C9 (witness): the reference-counting theorem applied at the concrete
states (no shared texture system, zero users) and (live shading system,
one user). -/
theorem shared_singletons_refcounted_witness :
    ts_inv { ts_shared := false, ts_shared_users := 0 } ∧
    ss_inv { ss_shared := true, ss_shared_users := 1 } ∧
    ts_inv (texture_system_init { ts_shared := false, ts_shared_users := 0 }) ∧
    ss_inv (shading_system_free { ss_shared := true, ss_shared_users := 1 }) :=
  have ht : ts_inv { ts_shared := false, ts_shared_users := 0 } := by
    simp [ts_inv]
  have hs : ss_inv { ss_shared := true, ss_shared_users := 1 } := by
    simp [ss_inv]
  have h := shared_singletons_refcounted _ _ ht hs
  ⟨ht, hs, h.2.2.2.2.2.2.2.2.1, h.2.2.2.2.2.2.2.2.2.2.2⟩

/-! Shader program cache (`OSLShaderManager::shader_load_filepath`, osl.cpp
lines 401-462, with `shader_test_loaded` lines 389-393, `shader_loaded_info`
lines 395-399, `shader_load_bytecode` lines 464-482 and
`shader_filepath_hash` lines 379-387).  The filesystem is modelled as an
explicit read-only environment; `path_modified_time` returns 0 for a
missing file and `path_read_text` fails with `none`.  The MD5 hash of
(filepath, modified time) is modelled as an injective encoding of the
pair into a string.  The external `oslc` compiler invocation
(`OSLShaderManager::osl_compile`, which drives `OSL::OSLCompiler` from the
OSL library) can change the filesystem; its effect is passed in as a
function parameter, unused on the `.oso` paths the claims exercise.  The
`OSL::ShadingSystem::LoadMemoryCompiledShader` call and the `OSLQuery`
introspection inside `shader_load_bytecode` are external library calls
with no effect on the cache state. -/

/-- Read-only view of the filesystem: `path_modified_time` (0 when the
file does not exist) and `path_read_text` (`none` when the file is missing
or unreadable). -/
structure FileSystem where
  modified_time : String → Nat
  read_text : String → Option String

/-- Cached information about one loaded shader (`OSLShaderInfo`): the
closure-presence booleans scanned out of the bytecode.  The `OSLQuery`
member is an external introspection object and is omitted. -/
structure OSLShaderInfo where
  has_surface_emission : Bool := false
  has_surface_transparent : Bool := false
  has_surface_bssrdf : Bool := false
deriving DecidableEq, Repr

/-- The `loaded_shaders` map of `OSLShaderManager`, `map<string,
OSLShaderInfo>` keyed by shader hash, modelled as an association list. -/
structure ManagerState where
  loaded_shaders : List (String × OSLShaderInfo)
deriving DecidableEq, Repr

/-- Map update `loaded_shaders[hash] = info`: replace the entry when the
key is present, insert otherwise. -/
def mapInsert (m : List (String × OSLShaderInfo)) (k : String)
    (v : OSLShaderInfo) : List (String × OSLShaderInfo) :=
  if m.any (fun p => p.1 == k) then
    m.map (fun p => if p.1 == k then (k, v) else p)
  else m ++ [(k, v)]

/-- Embedding of `shader_filepath_hash`: the MD5 of the file path bytes
followed by the modification time, modelled as an injective encoding of
the pair. -/
def shader_filepath_hash (filepath : String) (modified_time : Nat) : String :=
  filepath ++ "//" ++ toString modified_time

/-- Embedding of `OSLShaderManager::shader_test_loaded`: when the hash is a
key of `loaded_shaders` return the stored key string (the C++ function
returns `it->first.c_str()`, whose character content equals the hash),
otherwise NULL. -/
def shader_test_loaded (st : ManagerState) (hash : String) : Option String :=
  if st.loaded_shaders.any (fun p => p.1 == hash) then some hash else none

/-- Embedding of `OSLShaderManager::shader_loaded_info`: look up the cached
info for a hash. -/
def shader_loaded_info (st : ManagerState) (hash : String) : Option OSLShaderInfo :=
  (st.loaded_shaders.find? (fun p => p.1 == hash)).map (fun p => p.2)

/-- Pattern occurs at the head of a character list. -/
def leadsWith : List Char → List Char → Bool
  | [], _ => true
  | _ :: _, [] => false
  | p :: ps, c :: cs => p == c && leadsWith ps cs

/-- Pattern occurs somewhere in a character list. -/
def occursIn (pat : List Char) : List Char → Bool
  | [] => leadsWith pat []
  | c :: cs => leadsWith pat (c :: cs) || occursIn pat cs

/-- String containment helper used to model `string::find != npos`. -/
def strContains (s pat : String) : Bool :=
  occursIn pat.data s.data

/-- Embedding of `OSLShaderManager::shader_load_bytecode`: register the
bytecode with the shading system (external call, no cache effect), scan it
for the "emission" / "transparent" / "bssrdf" closure names, store the
info under the hash and return the stored key. -/
def shader_load_bytecode (st : ManagerState) (hash bytecode : String) :
    ManagerState × Option String :=
  let info : OSLShaderInfo :=
    { has_surface_emission := strContains bytecode "\"emission\"",
      has_surface_transparent := strContains bytecode "\"transparent\"",
      has_surface_bssrdf := strContains bytecode "\"bssrdf\"" }
  ({ loaded_shaders := mapInsert st.loaded_shaders hash info }, some hash)

/-- Embedding of `util_path`'s `path_dirname`: everything before the last
directory separator, empty for a bare file name.  Only the '/' separator
of the host platforms the claims exercise is modelled. -/
def path_dirname (p : String) : String :=
  String.mk (((p.data.reverse.dropWhile (fun c => c != '/')).drop 1).reverse)

/-- Embedding of `path_join`. -/
def path_join (a b : String) : String := a ++ "/" ++ b

/-- Embedding of `path_user_get`: the per-user resource directory, an
environment-dependent constant. -/
def path_user_get (sub : String) : String := "/userdir/" ++ sub

/-- The common tail of `shader_load_filepath` (osl.cpp lines 450-462): hash
the final path, read the bytecode; on read failure cache an empty
`OSLShaderInfo` under the hash ("to avoid repeat tries") and return NULL,
otherwise load the bytecode.  The third component of the result counts the
`path_read_text` calls performed. -/
def shader_load_read (fs : FileSystem) (st : ManagerState)
    (filepath : String) (modified_time : Nat) :
    ManagerState × Option String × Nat :=
  let bytecode_hash := shader_filepath_hash filepath modified_time
  match fs.read_text filepath with
  | none =>
    ({ loaded_shaders := mapInsert st.loaded_shaders bytecode_hash {} }, none, 1)
  | some bytecode =>
    let (st2, r) := shader_load_bytecode st bytecode_hash bytecode
    (st2, r, 1)

/-- Embedding of `OSLShaderManager::shader_load_filepath` (osl.cpp lines
401-462).  `oslc` is the filesystem effect of the external
`OSLShaderManager::osl_compile` invocation (arguments: filesystem, input
`.osl` path, output `.oso` path); it is only reached on the `.osl` branch.
Returns the new cache state, the result hash (NULL as `none`) and the
number of `path_read_text` calls performed. -/
def shader_load_filepath (oslc : FileSystem → String → String → FileSystem)
    (fs : FileSystem) (st : ManagerState) (filepath : String) :
    ManagerState × Option String × Nat :=
  let len := filepath.length
  let extension := filepath.drop (len - 4)
  let modified_time := fs.modified_time filepath
  if extension == ".osl" then
    let osopath := (filepath.take (len - 4)) ++ ".oso"
    let oso_modified_time := fs.modified_time osopath
    let cache_hit :=
      if oso_modified_time != 0 then
        shader_test_loaded st (shader_filepath_hash osopath oso_modified_time)
      else none
    match cache_hit with
    | some h => (st, some h, 0)
    | none =>
      let fsmt :=
        if oso_modified_time == 0 || decide (oso_modified_time < modified_time) then
          let fs2 := oslc fs filepath osopath
          (fs2, fs2.modified_time osopath)
        else (fs, oso_modified_time)
      shader_load_read fsmt.1 st osopath fsmt.2
  else if extension == ".oso" then
    match shader_test_loaded st (shader_filepath_hash filepath modified_time) with
    | some h => (st, some h, 0)
    | none => shader_load_read fs st filepath modified_time
  else if path_dirname filepath == "" then
    let filepath2 := path_join (path_user_get "shaders") (filepath ++ ".oso")
    match shader_test_loaded st (shader_filepath_hash filepath2 modified_time) with
    | some h => (st, some h, 0)
    | none => shader_load_read fs st filepath2 modified_time
  else
    (st, none, 0)

lemma mapInsert_key_mem (m : List (String × OSLShaderInfo)) (k : String)
    (v : OSLShaderInfo) :
    (mapInsert m k v).any (fun p => p.1 == k) = true := by
  unfold mapInsert
  split
  · rename_i h
    rw [List.any_map, List.any_eq_true] at *
    obtain ⟨p, hp, hpk⟩ := h
    refine ⟨p, hp, ?_⟩
    simp only [Function.comp]
    simp [hpk]
  · simp

lemma mapInsert_find (m : List (String × OSLShaderInfo)) (k : String)
    (v : OSLShaderInfo) :
    (mapInsert m k v).find? (fun p => p.1 == k) = some (k, v) := by
  unfold mapInsert
  split
  · rename_i h
    induction m with
    | nil => simp at h
    | cons p ps ih =>
      simp only [List.any_cons, Bool.or_eq_true] at h
      cases hp : (p.1 == k) with
      | true => simp [List.find?, hp]
      | false =>
        simp only [List.map_cons, List.find?, hp, if_neg]
        have hps : ps.any (fun q => q.1 == k) = true := by
          rcases h with h | h
          · rw [hp] at h; exact absurd h (by simp)
          · exact h
        simpa [hp] using ih hps
  · rename_i h
    have hnone : m.find? (fun p => p.1 == k) = none := by
      rw [List.find?_eq_none]
      intro p hp
      intro hpk
      exact h (List.any_eq_true.mpr ⟨p, hp, hpk⟩)
    rw [List.find?_append, hnone]
    simp [List.find?]

lemma shader_test_loaded_mapInsert (m : List (String × OSLShaderInfo))
    (k : String) (v : OSLShaderInfo) :
    shader_test_loaded { loaded_shaders := mapInsert m k v } k = some k := by
  simp [shader_test_loaded, mapInsert_key_mem]

/-- C7: `shader_load_filepath` is memoizing.  For a bytecode (`.oso`) file
that is readable, two calls with the same path against the same filesystem
(so the same modification time) both return the hash of (path,
modification time) as the shader identity; after the first call that hash
is a key of `loaded_shaders`; and the second call performs zero
`path_read_text` calls.  The hypotheses fix the `.oso` case of the claim's
"external shader" and require the shader source to be readable (a shader
that fails to load has no cached identity to return). -/
theorem shader_load_filepath_memoizes
    (oslc : FileSystem → String → String → FileSystem) (fs : FileSystem)
    (st : ManagerState) (filepath bytecode : String)
    (hext : filepath.drop (filepath.length - 4) = ".oso")
    (hread : fs.read_text filepath = some bytecode) :
    (shader_load_filepath oslc fs st filepath).2.1 =
        some (shader_filepath_hash filepath (fs.modified_time filepath)) ∧
    (shader_load_filepath oslc fs
        (shader_load_filepath oslc fs st filepath).1 filepath).2.1 =
        some (shader_filepath_hash filepath (fs.modified_time filepath)) ∧
    (shader_load_filepath oslc fs
        (shader_load_filepath oslc fs st filepath).1 filepath).2.2 = 0 ∧
    shader_test_loaded (shader_load_filepath oslc fs st filepath).1
        (shader_filepath_hash filepath (fs.modified_time filepath)) =
      some (shader_filepath_hash filepath (fs.modified_time filepath)) := by
  have hosl : (filepath.drop (filepath.length - 4) == ".osl") = false := by
    rw [hext]; decide
  have hoso : (filepath.drop (filepath.length - 4) == ".oso") = true := by
    rw [hext]; decide
  by_cases hmem : (st.loaded_shaders.any (fun p =>
      p.1 == shader_filepath_hash filepath (fs.modified_time filepath))) = true
  · simp [shader_load_filepath, hosl, hoso, shader_test_loaded, hmem]
  · rw [Bool.not_eq_true] at hmem
    simp [shader_load_filepath, hosl, hoso, shader_test_loaded, hmem,
      shader_load_read, hread, shader_load_bytecode, mapInsert_key_mem]

/-- C7 (witness): the memoization theorem applied to the concrete
filesystem holding one readable `.oso` file. -/
theorem shader_load_filepath_memoizes_witness :
    (fun p => if p == "node.oso" then some "BC" else none) "node.oso" = some "BC" ∧
    (shader_load_filepath (fun f _ _ => f)
        { modified_time := fun _ => 3,
          read_text := fun p => if p == "node.oso" then some "BC" else none }
        { loaded_shaders := [] } "node.oso").2.1 = some "node.oso//3" := by
  have h := shader_load_filepath_memoizes (fun f _ _ => f)
    { modified_time := fun _ => 3,
      read_text := fun p => if p == "node.oso" then some "BC" else none }
    { loaded_shaders := [] } "node.oso" "BC" (by decide) (by decide)
  exact ⟨by decide, h.1⟩

/-- Concrete filesystem for the C8 counterexample: every file has
modification time 3 and no file is readable. -/
def fsC8 : FileSystem := { modified_time := fun _ => 3, read_text := fun _ => none }

/-- C8 (counterexample): the claim "a repeated request for the same (path,
modification time) ... again yields no program" fails.  After a failed
load of "a.oso" (first call returns NULL), the second call finds the
negative sentinel entry via `shader_test_loaded` and returns its hash —
a non-NULL result — rather than NULL again. -/
theorem shader_load_filepath_negative_repeat_cex :
    (shader_load_filepath (fun f _ _ => f) fsC8
        { loaded_shaders := [] } "a.oso").2.1 = none ∧
    (shader_load_filepath (fun f _ _ => f) fsC8
        (shader_load_filepath (fun f _ _ => f) fsC8
          { loaded_shaders := [] } "a.oso").1 "a.oso").2.1 = some "a.oso//3" := by
  constructor <;> decide

/-- C8 (amended): when the shader source file is missing or unreadable (and
the file is not already cached), `shader_load_filepath` returns NULL and
caches a negative sentinel entry (an empty `OSLShaderInfo`) under the hash
of (path, modification time); a repeated request for the same (path,
modification time) performs no filesystem read and returns the cached
entry's hash — a non-NULL handle to the empty sentinel — instead of NULL. -/
theorem shader_load_filepath_negative_cache
    (oslc : FileSystem → String → String → FileSystem) (fs : FileSystem)
    (st : ManagerState) (filepath : String)
    (hext : filepath.drop (filepath.length - 4) = ".oso")
    (hmem : (st.loaded_shaders.any (fun p =>
      p.1 == shader_filepath_hash filepath (fs.modified_time filepath))) = false)
    (hread : fs.read_text filepath = none) :
    (shader_load_filepath oslc fs st filepath).2.1 = none ∧
    (shader_load_filepath oslc fs st filepath).2.2 = 1 ∧
    shader_loaded_info (shader_load_filepath oslc fs st filepath).1
        (shader_filepath_hash filepath (fs.modified_time filepath)) =
      some {} ∧
    (shader_load_filepath oslc fs
        (shader_load_filepath oslc fs st filepath).1 filepath).2.1 =
      some (shader_filepath_hash filepath (fs.modified_time filepath)) ∧
    (shader_load_filepath oslc fs
        (shader_load_filepath oslc fs st filepath).1 filepath).2.2 = 0 := by
  have hosl : (filepath.drop (filepath.length - 4) == ".osl") = false := by
    rw [hext]; decide
  have hoso : (filepath.drop (filepath.length - 4) == ".oso") = true := by
    rw [hext]; decide
  simp [shader_load_filepath, hosl, hoso, shader_test_loaded, hmem,
    shader_load_read, hread, shader_loaded_info, mapInsert_find,
    mapInsert_key_mem]

/-- C8 (witness for the amended claim): the negative-cache theorem applied
to the concrete unreadable filesystem `fsC8` and the path "b.oso". -/
theorem shader_load_filepath_negative_cache_witness :
    (shader_load_filepath (fun f _ _ => f) fsC8
        { loaded_shaders := [] } "b.oso").2.1 = none ∧
    (shader_load_filepath (fun f _ _ => f) fsC8
        (shader_load_filepath (fun f _ _ => f) fsC8
          { loaded_shaders := [] } "b.oso").1 "b.oso").2.2 = 0 :=
  have h := shader_load_filepath_negative_cache (fun f _ _ => f) fsC8
    { loaded_shaders := [] } "b.oso" (by decide) (by decide) (by decide)
  ⟨h.1, h.2.2.2.2⟩

/-! Dependency resolver (`OSLCompiler::find_dependencies`, osl.cpp lines
1056-1067) and node generation (`OSLCompiler::generate_nodes`, lines
1069-1118).  The C++ `ShaderNodeSet` is a `std::set` of node pointers:
membership is pointer identity, insertion is idempotent, and iteration
order (pointer order) is arbitrary with respect to the graph, so the set
is modelled as a duplicate-free list whose order the theorems never fix,
and `generate_nodes` is quantified over every iteration order of its input
set.  The C++ recursion of `find_dependencies` has no termination measure
of its own (it diverges on a cyclic graph); the embedding makes the
recursion depth an explicit fuel parameter, and the theorems supply enough
fuel from an acyclicity witness (a rank function decreasing along links,
which exists exactly when the graph is a DAG, the graph model's
invariant). -/

/-- Idempotent insertion into an ordered node set (`std::set::insert`). -/
def set_insert (deps : List Nat) (n : Nat) : List Nat :=
  if n ∈ deps then deps else deps ++ [n]

/-- Embedding of `OSLCompiler::find_dependencies`: follow the input's link
to its parent node; unless the node is already in the set, first resolve
every non-skipped input of that node recursively, then insert the node
(post-order). -/
def find_dependencies (g : ShaderGraph) (t : ShaderType) :
    Nat → List Nat → ShaderInput → List Nat
  | 0, deps, _ => deps
  | fuel + 1, deps, input =>
    match input.link with
    | none => deps
    | some nid =>
      if nid ∈ deps then deps
      else
        set_insert
          ((g nid).inputs.foldl
            (fun d i =>
              if node_skip_input g t (g nid) i then d
              else find_dependencies g t fuel d i) deps)
          nid

/-- A node is ready for emission: every non-skipped input is unlinked or
its link's parent is already in `done` (the inner loop of
`generate_nodes`, osl.cpp lines 1081-1084). -/
def inputs_done (g : ShaderGraph) (t : ShaderType) (done : List Nat)
    (n : Nat) : Bool :=
  (g n).inputs.all fun i =>
    node_skip_input g t (g n) i ||
      (match i.link with
       | none => true
       | some m => done.contains m)

/-- One node visit of the generation scan: skip a node already emitted,
emit a ready node (`node->compile` followed by `done.insert`), otherwise
clear the `nodes_done` flag. -/
def generate_step (g : ShaderGraph) (t : ShaderType)
    (acc : List Nat × Bool) (n : Nat) : List Nat × Bool :=
  if n ∈ acc.1 then acc
  else if inputs_done g t acc.1 n then (acc.1 ++ [n], acc.2)
  else (acc.1, false)

/-- One full scan over the node set (the `foreach` of osl.cpp lines
1077-1116), threading the emitted set and the `nodes_done` flag. -/
def generate_pass (g : ShaderGraph) (t : ShaderType) (nodes : List Nat)
    (acc : List Nat × Bool) : List Nat × Bool :=
  nodes.foldl (generate_step g t) acc

/-- Embedding of `OSLCompiler::generate_nodes`: the do/while fixpoint loop,
with the emitted set as the loop state.  The C++ loop has no termination
measure (it spins forever when a remaining node can never become ready);
the embedding bounds the number of passes by fuel and returns `none` when
the bound is hit, so divergence of the source loop is the statement that
every fuel yields `none`. -/
def generate_nodes (g : ShaderGraph) (t : ShaderType) (nodes : List Nat) :
    Nat → List Nat → Option (List Nat)
  | 0, _ => none
  | fuel + 1, done =>
    let r := generate_pass g t nodes (done, true)
    if r.2 then some r.1 else generate_nodes g t nodes fuel r.1

/-- All the relevant (linked, non-skipped) input sources of node `n` lie in
`pre`. -/
def sources_in (g : ShaderGraph) (t : ShaderType) (n : Nat)
    (pre : List Nat) : Prop :=
  ∀ i ∈ (g n).inputs, node_skip_input g t (g n) i = false →
    ∀ m, i.link = some m → m ∈ pre

/-- Node `x` is reachable from `input` through links, descending only
through non-skipped inputs. -/
inductive Reaches (g : ShaderGraph) (t : ShaderType) : ShaderInput → Nat → Prop where
  | src : ∀ (i : ShaderInput) (s : Nat), i.link = some s → Reaches g t i s
  | step : ∀ (i : ShaderInput) (s : Nat) (j : ShaderInput) (x : Nat),
      i.link = some s → j ∈ (g s).inputs →
      node_skip_input g t (g s) j = false →
      Reaches g t j x → Reaches g t i x

/-- The graph is ranked: some rank function strictly decreases along every
link.  Such a function exists exactly when the link relation is acyclic
(the ShaderGraph DAG invariant). -/
def Ranked (g : ShaderGraph) (rank : Nat → Nat) : Prop :=
  ∀ n : Nat, ∀ i ∈ (g n).inputs, ∀ m, i.link = some m → rank m < rank n

/-- The node set is closed (decidable form): the link source of every
non-skipped input of a member is a member.  This is the defining property
of a dependency set — `find_dependencies` guarantees it. -/
def closedB (g : ShaderGraph) (t : ShaderType) (nodes : List Nat) : Bool :=
  nodes.all fun n => (g n).inputs.all fun i =>
    node_skip_input g t (g n) i ||
      (match i.link with
       | none => true
       | some m => nodes.contains m)

/-- The linked, non-skipped input relation restricted to the node set is
acyclic, witnessed by a rank function (decidable form). -/
def rankedB (g : ShaderGraph) (t : ShaderType) (rank : Nat → Nat)
    (nodes : List Nat) : Bool :=
  nodes.all fun n => (g n).inputs.all fun i =>
    node_skip_input g t (g n) i ||
      (match i.link with
       | none => true
       | some m => decide (rank m < rank n))

/-- The emitted list grows only by snoc steps, each of a node whose
relevant sources were already emitted: the topological-order invariant of
the generation loop. -/
inductive TopoList (g : ShaderGraph) (t : ShaderType) : List Nat → Prop where
  | nil : TopoList g t []
  | snoc : ∀ (l : List Nat) (n : Nat), TopoList g t l →
      sources_in g t n l → TopoList g t (l ++ [n])

lemma set_insert_mem_self (deps : List Nat) (n : Nat) : n ∈ set_insert deps n := by
  unfold set_insert
  split
  · assumption
  · simp

lemma set_insert_mono (deps : List Nat) (n : Nat) :
    ∀ x ∈ deps, x ∈ set_insert deps n := by
  intro x hx
  unfold set_insert
  split
  · exact hx
  · simp [hx]

lemma set_insert_sub (deps : List Nat) (n : Nat) :
    ∀ x ∈ set_insert deps n, x = n ∨ x ∈ deps := by
  intro x hx
  unfold set_insert at hx
  split at hx
  · exact Or.inr hx
  · rcases List.mem_append.mp hx with h | h
    · exact Or.inr h
    · exact Or.inl (by simpa using h)

lemma set_insert_nodup (deps : List Nat) (n : Nat) (h : deps.Nodup) :
    (set_insert deps n).Nodup := by
  unfold set_insert
  split
  · exact h
  · rename_i hn
    simp [List.nodup_append, h, hn]

lemma sources_in_mono (g : ShaderGraph) (t : ShaderType) (n : Nat)
    (l1 l2 : List Nat) (hsub : ∀ x ∈ l1, x ∈ l2) :
    sources_in g t n l1 → sources_in g t n l2 := by
  intro h i hi hskip m hm
  exact hsub m (h i hi hskip m hm)

lemma fd_fold_nodup (g : ShaderGraph) (t : ShaderType) (fuel : Nat) (nid : Nat)
    (IH : ∀ deps input, deps.Nodup → (find_dependencies g t fuel deps input).Nodup) :
    ∀ (ins : List ShaderInput) (deps : List Nat), deps.Nodup →
      (ins.foldl (fun d i =>
        if node_skip_input g t (g nid) i then d
        else find_dependencies g t fuel d i) deps).Nodup := by
  intro ins
  induction ins with
  | nil =>
    intro deps h
    simpa using h
  | cons j js ih =>
    intro deps h
    simp only [List.foldl_cons]
    by_cases hs : node_skip_input g t (g nid) j = true
    · rw [if_pos hs]
      exact ih deps h
    · rw [if_neg hs]
      exact ih _ (IH deps j h)

lemma fd_nodup (g : ShaderGraph) (t : ShaderType) :
    ∀ (fuel : Nat) (deps : List Nat) (input : ShaderInput), deps.Nodup →
      (find_dependencies g t fuel deps input).Nodup := by
  intro fuel
  induction fuel with
  | zero =>
    intro deps input h
    simpa [find_dependencies] using h
  | succ f ih =>
    intro deps input h
    cases hl : input.link with
    | none => simpa [find_dependencies, hl] using h
    | some nid =>
      simp only [find_dependencies, hl]
      split
      · exact h
      · exact set_insert_nodup _ _
          (fd_fold_nodup g t f nid (fun d i hd => ih d i hd) _ _ h)

/-- The inner fold of `find_dependencies` over the inputs of node `nid`. -/
def fd_fold (g : ShaderGraph) (t : ShaderType) (fuel nid : Nat)
    (deps : List Nat) (ins : List ShaderInput) : List Nat :=
  ins.foldl (fun d i =>
    if node_skip_input g t (g nid) i then d
    else find_dependencies g t fuel d i) deps

lemma fd_unfold (g : ShaderGraph) (t : ShaderType) (fuel : Nat)
    (deps : List Nat) (input : ShaderInput) (nid : Nat)
    (hl : input.link = some nid) (hmem : nid ∉ deps) :
    find_dependencies g t (fuel + 1) deps input =
      set_insert (fd_fold g t fuel nid deps (g nid).inputs) nid := by
  simp only [find_dependencies, hl, fd_fold]
  rw [if_neg hmem]

lemma fd_fold_main (g : ShaderGraph) (t : ShaderType) (rank : Nat → Nat)
    (fuel : Nat) (nid : Nat)
    (IH : ∀ (input : ShaderInput) (deps : List Nat),
      (∀ m, input.link = some m → rank m < fuel) →
      (∀ x ∈ deps, x ∈ find_dependencies g t fuel deps input) ∧
      (∀ m, input.link = some m → m ∈ find_dependencies g t fuel deps input) ∧
      (∀ x ∈ find_dependencies g t fuel deps input, x ∈ deps ∨ Reaches g t input x) ∧
      (∀ x ∈ find_dependencies g t fuel deps input, x ∉ deps →
        sources_in g t x (find_dependencies g t fuel deps input))) :
    ∀ (ins : List ShaderInput) (deps : List Nat),
      (∀ j ∈ ins, ∀ m, j.link = some m → rank m < fuel) →
      (∀ x ∈ deps, x ∈ fd_fold g t fuel nid deps ins) ∧
      (∀ x ∈ fd_fold g t fuel nid deps ins, x ∈ deps ∨
        ∃ j, j ∈ ins ∧ node_skip_input g t (g nid) j = false ∧ Reaches g t j x) ∧
      (∀ j ∈ ins, node_skip_input g t (g nid) j = false →
        ∀ m, j.link = some m → m ∈ fd_fold g t fuel nid deps ins) ∧
      (∀ x ∈ fd_fold g t fuel nid deps ins, x ∉ deps →
        sources_in g t x (fd_fold g t fuel nid deps ins)) := by
  intro ins
  induction ins with
  | nil =>
    intro deps hb
    simp only [fd_fold, List.foldl_nil]
    refine ⟨fun x hx => hx, fun x hx => Or.inl hx, ?_, fun x hx hnx => absurd hx hnx⟩
    intro j hj
    simp at hj
  | cons j js ih =>
    intro deps hb
    have hcons : fd_fold g t fuel nid deps (j :: js) =
        fd_fold g t fuel nid
          (if node_skip_input g t (g nid) j then deps
           else find_dependencies g t fuel deps j) js := by
      simp only [fd_fold, List.foldl_cons]
    by_cases hs : node_skip_input g t (g nid) j = true
    · rw [hcons, if_pos hs]
      have H := ih deps (fun j2 hj2 => hb j2 (List.mem_cons_of_mem _ hj2))
      refine ⟨H.1, ?_, ?_, H.2.2.2⟩
      · intro x hx
        rcases H.2.1 x hx with h | ⟨j2, hj2, hsk, hr⟩
        · exact Or.inl h
        · exact Or.inr ⟨j2, List.mem_cons_of_mem _ hj2, hsk, hr⟩
      · intro j2 hj2 hsk m hm
        rcases List.mem_cons.mp hj2 with rfl | hj2
        · simp [hs] at hsk
        · exact H.2.2.1 j2 hj2 hsk m hm
    · have hs2 : node_skip_input g t (g nid) j = false := by
        cases h : node_skip_input g t (g nid) j
        · rfl
        · exact absurd h hs
      rw [hcons, if_neg hs]
      have hbj : ∀ m, j.link = some m → rank m < fuel :=
        hb j (List.mem_cons_self _ _)
      have H1 := IH j deps hbj
      have H2 := ih (find_dependencies g t fuel deps j)
        (fun j2 hj2 => hb j2 (List.mem_cons_of_mem _ hj2))
      refine ⟨?_, ?_, ?_, ?_⟩
      · intro x hx
        exact H2.1 x (H1.1 x hx)
      · intro x hx
        rcases H2.2.1 x hx with h1 | ⟨j2, hj2, hsk, hr⟩
        · rcases H1.2.2.1 x h1 with h | hr
          · exact Or.inl h
          · exact Or.inr ⟨j, List.mem_cons_self _ _, hs2, hr⟩
        · exact Or.inr ⟨j2, List.mem_cons_of_mem _ hj2, hsk, hr⟩
      · intro j2 hj2 hsk m hm
        rcases List.mem_cons.mp hj2 with rfl | hj2
        · exact H2.1 m (H1.2.1 m hm)
        · exact H2.2.2.1 j2 hj2 hsk m hm
      · intro x hx hnx
        by_cases hxd : x ∈ find_dependencies g t fuel deps j
        · exact sources_in_mono g t x _ _ H2.1 (H1.2.2.2 x hxd hnx)
        · exact H2.2.2.2 x hx hxd

lemma fd_main (g : ShaderGraph) (t : ShaderType) (rank : Nat → Nat)
    (hrank : Ranked g rank) :
    ∀ (fuel : Nat) (input : ShaderInput) (deps : List Nat),
      (∀ m, input.link = some m → rank m < fuel) →
      (∀ x ∈ deps, x ∈ find_dependencies g t fuel deps input) ∧
      (∀ m, input.link = some m → m ∈ find_dependencies g t fuel deps input) ∧
      (∀ x ∈ find_dependencies g t fuel deps input, x ∈ deps ∨ Reaches g t input x) ∧
      (∀ x ∈ find_dependencies g t fuel deps input, x ∉ deps →
        sources_in g t x (find_dependencies g t fuel deps input)) := by
  intro fuel
  induction fuel with
  | zero =>
    intro input deps hbound
    cases hl : input.link with
    | none =>
      refine ⟨fun x hx => hx, ?_, fun x hx => Or.inl hx, fun x hx hnx => absurd hx hnx⟩
      intro m hm
      simp at hm
    | some s =>
      exact absurd (hbound s hl) (Nat.not_lt_zero _)
  | succ f ih =>
    intro input deps hbound
    cases hl : input.link with
    | none =>
      have hres : find_dependencies g t (f + 1) deps input = deps := by
        simp [find_dependencies, hl]
      rw [hres]
      refine ⟨fun x hx => hx, ?_, fun x hx => Or.inl hx, fun x hx hnx => absurd hx hnx⟩
      intro m hm
      simp at hm
    | some nid =>
      by_cases hmem : nid ∈ deps
      · have hres : find_dependencies g t (f + 1) deps input = deps := by
          simp [find_dependencies, hl, hmem]
        rw [hres]
        refine ⟨fun x hx => hx, ?_, fun x hx => Or.inl hx,
          fun x hx hnx => absurd hx hnx⟩
        intro m hm
        injection hm with h
        rw [← h]
        exact hmem
      · have hres := fd_unfold g t f deps input nid hl hmem
        have hboundf : ∀ j ∈ (g nid).inputs, ∀ m, j.link = some m → rank m < f := by
          intro j hj m hm
          have h1 : rank m < rank nid := hrank nid j hj m hm
          have h2 : rank nid < f + 1 := hbound nid hl
          omega
        have H := fd_fold_main g t rank f nid (fun inp d hb => ih inp d hb)
          (g nid).inputs deps hboundf
        rw [hres]
        refine ⟨?_, ?_, ?_, ?_⟩
        · intro x hx
          exact set_insert_mono _ _ x (H.1 x hx)
        · intro m hm
          injection hm with h
          rw [← h]
          exact set_insert_mem_self _ _
        · intro x hx
          rcases set_insert_sub _ _ x hx with rfl | hx2
          · exact Or.inr (Reaches.src input x hl)
          · rcases H.2.1 x hx2 with h | ⟨j2, hj2, hsk, hr⟩
            · exact Or.inl h
            · exact Or.inr (Reaches.step input nid j2 x hl hj2 hsk hr)
        · intro x hx hnx
          rcases set_insert_sub _ _ x hx with rfl | hx2
          · intro i hi hskip m hm
            exact set_insert_mono _ _ m (H.2.2.1 i hi hskip m hm)
          · exact sources_in_mono g t x _ _ (fun y hy => set_insert_mono _ _ y hy)
              (H.2.2.2 x hx2 hnx)

lemma inputs_done_iff (g : ShaderGraph) (t : ShaderType) (done : List Nat)
    (n : Nat) :
    inputs_done g t done n = true ↔ sources_in g t n done := by
  unfold inputs_done sources_in
  rw [List.all_eq_true]
  constructor
  · intro h i hi hskip m hm
    have h2 := h i hi
    rw [hskip, hm] at h2
    simpa using h2
  · intro h i hi
    cases hskip : node_skip_input g t (g n) i
    · cases hm : i.link with
      | none => simp
      | some m =>
        have := h i hi hskip m hm
        simpa using this
    · simp

lemma gstep_fst (g : ShaderGraph) (t : ShaderType) (acc : List Nat × Bool)
    (n : Nat) :
    ∃ e, (generate_step g t acc n).1 = acc.1 ++ e ∧ ∀ x ∈ e, x = n := by
  unfold generate_step
  split
  · exact ⟨[], by simp, by simp⟩
  · split
    · exact ⟨[n], rfl, by simp⟩
    · exact ⟨[], by simp, by simp⟩

lemma gstep_mono (g : ShaderGraph) (t : ShaderType) (acc : List Nat × Bool)
    (n : Nat) :
    ∀ x ∈ acc.1, x ∈ (generate_step g t acc n).1 := by
  intro x hx
  obtain ⟨e, he, -⟩ := gstep_fst g t acc n
  rw [he]
  exact List.mem_append_left _ hx

lemma gstep_inv (g : ShaderGraph) (t : ShaderType) (acc : List Nat × Bool)
    (n : Nat) (h1 : acc.1.Nodup) (h2 : TopoList g t acc.1) :
    (generate_step g t acc n).1.Nodup ∧ TopoList g t (generate_step g t acc n).1 := by
  unfold generate_step
  split
  · exact ⟨h1, h2⟩
  · rename_i hn
    split
    · rename_i hd
      refine ⟨?_, TopoList.snoc _ _ h2 ((inputs_done_iff g t acc.1 n).mp hd)⟩
      simp [List.nodup_append, h1, hn]
    · exact ⟨h1, h2⟩

lemma gstep_flag (g : ShaderGraph) (t : ShaderType) (acc : List Nat × Bool)
    (n : Nat) (h : (generate_step g t acc n).2 = true) : acc.2 = true := by
  unfold generate_step at h
  split at h
  · exact h
  · split at h
    · exact h
    · cases h

lemma gstep_flag_mem (g : ShaderGraph) (t : ShaderType) (acc : List Nat × Bool)
    (n : Nat) (h : (generate_step g t acc n).2 = true) :
    n ∈ (generate_step g t acc n).1 := by
  unfold generate_step at h ⊢
  split at h
  · rename_i hin
    rw [if_pos hin]
    exact hin
  · rename_i hin
    rw [if_neg hin]
    split at h
    · rename_i hd
      rw [if_pos hd]
      simp
    · simp at h

lemma gpass_cons (g : ShaderGraph) (t : ShaderType) (n : Nat) (ns : List Nat)
    (acc : List Nat × Bool) :
    generate_pass g t (n :: ns) acc =
      generate_pass g t ns (generate_step g t acc n) := by
  simp [generate_pass]

lemma gpass_append (g : ShaderGraph) (t : ShaderType) :
    ∀ (ns : List Nat) (acc : List Nat × Bool),
      ∃ extra, (generate_pass g t ns acc).1 = acc.1 ++ extra ∧
        ∀ x ∈ extra, x ∈ ns := by
  intro ns
  induction ns with
  | nil =>
    intro acc
    exact ⟨[], by simp [generate_pass], by simp⟩
  | cons n ns ih =>
    intro acc
    rw [gpass_cons]
    obtain ⟨e1, he1, hm1⟩ := gstep_fst g t acc n
    obtain ⟨e2, he2, hm2⟩ := ih (generate_step g t acc n)
    refine ⟨e1 ++ e2, ?_, ?_⟩
    · rw [he2, he1, List.append_assoc]
    · intro x hx
      rcases List.mem_append.mp hx with hx | hx
      · rw [hm1 x hx]
        exact List.mem_cons_self _ _
      · exact List.mem_cons_of_mem _ (hm2 x hx)

lemma gpass_mono (g : ShaderGraph) (t : ShaderType) (ns : List Nat)
    (acc : List Nat × Bool) :
    ∀ x ∈ acc.1, x ∈ (generate_pass g t ns acc).1 := by
  intro x hx
  obtain ⟨e, he, -⟩ := gpass_append g t ns acc
  rw [he]
  exact List.mem_append_left _ hx

lemma gpass_inv (g : ShaderGraph) (t : ShaderType) :
    ∀ (ns : List Nat) (acc : List Nat × Bool), acc.1.Nodup → TopoList g t acc.1 →
      (generate_pass g t ns acc).1.Nodup ∧
        TopoList g t (generate_pass g t ns acc).1 := by
  intro ns
  induction ns with
  | nil =>
    intro acc h1 h2
    exact ⟨by simpa [generate_pass] using h1, by simpa [generate_pass] using h2⟩
  | cons n ns ih =>
    intro acc h1 h2
    rw [gpass_cons]
    obtain ⟨h3, h4⟩ := gstep_inv g t acc n h1 h2
    exact ih _ h3 h4

lemma gpass_flag (g : ShaderGraph) (t : ShaderType) :
    ∀ (ns : List Nat) (acc : List Nat × Bool),
      (generate_pass g t ns acc).2 = true →
      acc.2 = true ∧ ∀ n ∈ ns, n ∈ (generate_pass g t ns acc).1 := by
  intro ns
  induction ns with
  | nil =>
    intro acc h
    refine ⟨by simpa [generate_pass] using h, by simp⟩
  | cons n ns ih =>
    intro acc h
    rw [gpass_cons] at h ⊢
    obtain ⟨hstep, hmem⟩ := ih _ h
    refine ⟨gstep_flag g t acc n hstep, ?_⟩
    intro n2 hn2
    rcases List.mem_cons.mp hn2 with rfl | hn2
    · exact gpass_mono g t ns _ n2 (gstep_flag_mem g t acc n2 hstep)
    · exact hmem n2 hn2

lemma gpass_stable (g : ShaderGraph) (t : ShaderType) :
    ∀ (ns : List Nat) (done : List Nat) (b : Bool), (∀ n ∈ ns, n ∈ done) →
      generate_pass g t ns (done, b) = (done, b) := by
  intro ns
  induction ns with
  | nil =>
    intro done b _
    simp [generate_pass]
  | cons n ns ih =>
    intro done b h
    rw [gpass_cons]
    have hstep : generate_step g t (done, b) n = (done, b) := by
      unfold generate_step
      rw [if_pos (h n (List.mem_cons_self _ _))]
    rw [hstep]
    exact ih done b (fun n2 hn2 => h n2 (List.mem_cons_of_mem _ hn2))

lemma gpass_hits (g : ShaderGraph) (t : ShaderType) :
    ∀ (ns : List Nat) (acc : List Nat × Bool) (n0 : Nat), n0 ∈ ns →
      sources_in g t n0 acc.1 → n0 ∈ (generate_pass g t ns acc).1 := by
  intro ns
  induction ns with
  | nil =>
    intro acc n0 h _
    simp at h
  | cons n ns ih =>
    intro acc n0 hmem hsrc
    rw [gpass_cons]
    rcases List.mem_cons.mp hmem with rfl | hmem
    · apply gpass_mono
      by_cases hin : n0 ∈ acc.1
      · exact gstep_mono g t acc n0 n0 hin
      · unfold generate_step
        rw [if_neg hin, if_pos ((inputs_done_iff g t acc.1 n0).mpr hsrc)]
        simp
    · exact ih _ n0 hmem
        (sources_in_mono g t n0 _ _ (gstep_mono g t acc n) hsrc)

lemma exists_min_filtered (rank : Nat → Nat) (P : Nat → Prop) :
    ∀ (l : List Nat), (∃ n ∈ l, P n) →
      ∃ m ∈ l, P m ∧ ∀ y ∈ l, P y → rank m ≤ rank y := by
  intro l
  induction l with
  | nil =>
    intro h
    simp at h
  | cons a l ih =>
    intro h
    by_cases htail : ∃ n ∈ l, P n
    · obtain ⟨m, hm, hPm, hmin⟩ := ih htail
      by_cases hPa : P a
      · by_cases hcmp : rank a ≤ rank m
        · refine ⟨a, List.mem_cons_self _ _, hPa, ?_⟩
          intro y hy hPy
          rcases List.mem_cons.mp hy with rfl | hy
          · exact le_refl _
          · exact le_trans hcmp (hmin y hy hPy)
        · refine ⟨m, List.mem_cons_of_mem _ hm, hPm, ?_⟩
          intro y hy hPy
          rcases List.mem_cons.mp hy with rfl | hy
          · omega
          · exact hmin y hy hPy
      · refine ⟨m, List.mem_cons_of_mem _ hm, hPm, ?_⟩
        intro y hy hPy
        rcases List.mem_cons.mp hy with rfl | hy
        · exact absurd hPy hPa
        · exact hmin y hy hPy
    · obtain ⟨n, hn, hPn⟩ := h
      rcases List.mem_cons.mp hn with rfl | hn
      · refine ⟨n, List.mem_cons_self _ _, hPn, ?_⟩
        intro y hy hPy
        rcases List.mem_cons.mp hy with rfl | hy
        · exact le_refl _
        · exact absurd ⟨y, hy, hPy⟩ htail
      · exact absurd ⟨n, hn, hPn⟩ htail

lemma gpass_progress (g : ShaderGraph) (t : ShaderType) (nodes : List Nat)
    (rank : Nat → Nat)
    (hclosed : ∀ n ∈ nodes, ∀ i ∈ (g n).inputs,
      node_skip_input g t (g n) i = false → ∀ m, i.link = some m → m ∈ nodes)
    (hranked : ∀ n ∈ nodes, ∀ i ∈ (g n).inputs,
      node_skip_input g t (g n) i = false → ∀ m, i.link = some m →
        rank m < rank n)
    (done : List Nat) (hex : ∃ n ∈ nodes, n ∉ done) :
    ∃ n0 ∈ nodes, n0 ∉ done ∧
      n0 ∈ (generate_pass g t nodes (done, true)).1 := by
  obtain ⟨n0, hn0, hP, hmin⟩ :=
    exists_min_filtered rank (fun n => n ∉ done) nodes hex
  refine ⟨n0, hn0, hP, ?_⟩
  apply gpass_hits g t nodes (done, true) n0 hn0
  intro i hi hskip m hm
  have hmn : m ∈ nodes := hclosed n0 hn0 i hi hskip m hm
  have hr : rank m < rank n0 := hranked n0 hn0 i hi hskip m hm
  by_contra hmd
  have := hmin m hmn hmd
  omega

lemma nodup_subset_length_le (l1 l2 : List Nat) (h1 : l1.Nodup)
    (hsub : ∀ x ∈ l1, x ∈ l2) : l1.length ≤ l2.length := by
  have hc1 : l1.toFinset.card = l1.length := List.toFinset_card_of_nodup h1
  have hc2 : l2.toFinset.card ≤ l2.length := l2.toFinset_card_le
  have hsub2 : l1.toFinset ⊆ l2.toFinset := by
    intro x hx
    rw [List.mem_toFinset] at *
    exact hsub x hx
  have := Finset.card_le_card hsub2
  omega

lemma gen_loop_main (g : ShaderGraph) (t : ShaderType) (nodes : List Nat)
    (rank : Nat → Nat)
    (hclosed : ∀ n ∈ nodes, ∀ i ∈ (g n).inputs,
      node_skip_input g t (g n) i = false → ∀ m, i.link = some m → m ∈ nodes)
    (hranked : ∀ n ∈ nodes, ∀ i ∈ (g n).inputs,
      node_skip_input g t (g n) i = false → ∀ m, i.link = some m →
        rank m < rank n) :
    ∀ (fuel : Nat) (done : List Nat), done.Nodup → TopoList g t done →
      (∀ x ∈ done, x ∈ nodes) →
      nodes.length + 1 ≤ fuel + done.length →
      ∃ d, generate_nodes g t nodes fuel done = some d ∧ d.Nodup ∧
        TopoList g t d ∧ (∀ x ∈ d, x ∈ nodes) ∧ (∀ n ∈ nodes, n ∈ d) := by
  intro fuel
  induction fuel with
  | zero =>
    intro done h1 _ h3 hlen
    have := nodup_subset_length_le done nodes h1 h3
    omega
  | succ f ih =>
    intro done h1 h2 h3 hlen
    obtain ⟨hn1, hn2⟩ := gpass_inv g t nodes (done, true) h1 h2
    obtain ⟨extra, hext, hextmem⟩ := gpass_append g t nodes (done, true)
    have hsub : ∀ x ∈ (generate_pass g t nodes (done, true)).1, x ∈ nodes := by
      intro x hx
      rw [hext] at hx
      rcases List.mem_append.mp hx with hx | hx
      · exact h3 x hx
      · exact hextmem x hx
    by_cases hflag : (generate_pass g t nodes (done, true)).2 = true
    · refine ⟨(generate_pass g t nodes (done, true)).1, ?_, hn1, hn2, hsub, ?_⟩
      · simp only [generate_nodes]
        rw [if_pos hflag]
      · exact (gpass_flag g t nodes (done, true) hflag).2
    · by_cases hall : ∀ n ∈ nodes, n ∈ done
      · exact absurd (by rw [gpass_stable g t nodes done true hall]) hflag
      · push_neg at hall
        obtain ⟨n0, hn0nodes, hn0done, hn0pass⟩ :=
          gpass_progress g t nodes rank hclosed hranked done
            ⟨hall.choose, hall.choose_spec.1, hall.choose_spec.2⟩
        have hne : extra ≠ [] := by
          intro hcon
          rw [hcon, List.append_nil] at hext
          rw [hext] at hn0pass
          exact hn0done hn0pass
        have hlen2 : done.length + 1 ≤ (generate_pass g t nodes (done, true)).1.length := by
          rw [hext]
          show done.length + 1 ≤ (done ++ extra).length
          rw [List.length_append]
          have : 1 ≤ extra.length := by
            cases extra with
            | nil => exact absurd rfl hne
            | cons a l => simp
          omega
        obtain ⟨d, hd, hd1, hd2, hd3, hd4⟩ := ih
          (generate_pass g t nodes (done, true)).1 hn1 hn2 hsub (by omega)
        refine ⟨d, ?_, hd1, hd2, hd3, hd4⟩
        simp only [generate_nodes]
        rw [if_neg hflag]
        exact hd

lemma gen_subset (g : ShaderGraph) (t : ShaderType) (nodes : List Nat) :
    ∀ (fuel : Nat) (done d : List Nat),
      generate_nodes g t nodes fuel done = some d →
      ∀ x ∈ d, x ∈ done ∨ x ∈ nodes := by
  intro fuel
  induction fuel with
  | zero =>
    intro done d h
    simp [generate_nodes] at h
  | succ f ih =>
    intro done d h
    simp only [generate_nodes] at h
    obtain ⟨extra, hext, hextmem⟩ := gpass_append g t nodes (done, true)
    split at h
    · injection h with h
      intro x hx
      rw [← h, hext] at hx
      rcases List.mem_append.mp hx with hx | hx
      · exact Or.inl hx
      · exact Or.inr (hextmem x hx)
    · intro x hx
      rcases ih _ d h x hx with h2 | h2
      · rw [hext] at h2
        rcases List.mem_append.mp h2 with h2 | h2
        · exact Or.inl h2
        · exact Or.inr (hextmem x h2)
      · exact Or.inr h2

lemma closedB_spec (g : ShaderGraph) (t : ShaderType) (nodes : List Nat)
    (h : closedB g t nodes = true) :
    ∀ n ∈ nodes, ∀ i ∈ (g n).inputs, node_skip_input g t (g n) i = false →
      ∀ m, i.link = some m → m ∈ nodes := by
  intro n hn i hi hskip m hm
  unfold closedB at h
  rw [List.all_eq_true] at h
  have h2 := h n hn
  rw [List.all_eq_true] at h2
  have h3 := h2 i hi
  rw [hskip, hm] at h3
  simpa using h3

lemma rankedB_spec (g : ShaderGraph) (t : ShaderType) (rank : Nat → Nat)
    (nodes : List Nat) (h : rankedB g t rank nodes = true) :
    ∀ n ∈ nodes, ∀ i ∈ (g n).inputs, node_skip_input g t (g n) i = false →
      ∀ m, i.link = some m → rank m < rank n := by
  intro n hn i hi hskip m hm
  unfold rankedB at h
  rw [List.all_eq_true] at h
  have h2 := h n hn
  rw [List.all_eq_true] at h2
  have h3 := h2 i hi
  rw [hskip, hm] at h3
  simpa using h3

lemma topoList_split (g : ShaderGraph) (t : ShaderType) :
    ∀ (l : List Nat), TopoList g t l →
      ∀ (pre : List Nat) (n : Nat) (post : List Nat),
        l = pre ++ n :: post → sources_in g t n pre := by
  intro l h
  induction h with
  | nil =>
    intro pre n post hcon
    exact absurd hcon.symm (by simp)
  | snoc l0 n0 h hsrc ih =>
    intro pre n post heq
    rcases List.eq_nil_or_concat post with rfl | ⟨qs, q, rfl⟩
    · have hlen : l0.length = pre.length := by
        have hc := congrArg List.length heq
        simp at hc
        omega
      obtain ⟨h1, h2⟩ := List.append_inj heq hlen
      injection h2 with h2a h2b
      rw [← h1, ← h2a]
      exact hsrc
    · have heq2 : l0 ++ [n0] = (pre ++ n :: qs) ++ [q] := by
        rw [heq]
        simp
      have hlen : l0.length = (pre ++ n :: qs).length := by
        have hc := congrArg List.length heq2
        simp at hc
        simp
        omega
      obtain ⟨h1, h2⟩ := List.append_inj heq2 hlen
      exact ih pre n qs h1

/-- C3: the dependency set of `find_dependencies` from an input socket is
duplicate-free, contains the source node of the input's link (if any), is
closed (the source of every linked, non-skipped input of a member is a
member), contains only nodes reachable from the input through non-skipped
links (so a node reachable only through skipped, context-irrelevant inputs
is never in it), and the generated program (`generate_nodes` over the set)
emits only members of the set.  The graph is assumed acyclic (`Ranked`) and
the recursion fuel covers the link's rank, matching the C++ recursion that
terminates exactly on acyclic graphs. -/
theorem find_dependencies_closed (g : ShaderGraph) (t : ShaderType)
    (rank : Nat → Nat) (input : ShaderInput) (fuel : Nat)
    (hrank : Ranked g rank)
    (hfuel : ∀ m, input.link = some m → rank m < fuel) :
    (find_dependencies g t fuel [] input).Nodup ∧
    (∀ m, input.link = some m → m ∈ find_dependencies g t fuel [] input) ∧
    (∀ x ∈ find_dependencies g t fuel [] input,
      sources_in g t x (find_dependencies g t fuel [] input)) ∧
    (∀ x ∈ find_dependencies g t fuel [] input, Reaches g t input x) ∧
    (∀ (fuel2 : Nat) (d : List Nat),
      generate_nodes g t (find_dependencies g t fuel [] input) fuel2 [] = some d →
      ∀ x ∈ d, x ∈ find_dependencies g t fuel [] input) := by
  have H := fd_main g t rank hrank fuel input [] hfuel
  refine ⟨fd_nodup g t fuel [] input List.nodup_nil, H.2.1, ?_, ?_, ?_⟩
  · intro x hx
    exact H.2.2.2 x hx (List.not_mem_nil x)
  · intro x hx
    rcases H.2.2.1 x hx with h | h
    · exact absurd h (List.not_mem_nil x)
    · exact h
  · intro fuel2 d hd x hx
    rcases gen_subset g t _ fuel2 [] d hd x hx with h | h
    · exact absurd h (List.not_mem_nil x)
    · exact h

/-- Concrete graph for the C3 witness: every node is a plain node without
inputs. -/
def gC3 : ShaderGraph := fun _ => { special := SpecialType.plain, inputs := [] }

/-- Concrete root input for the C3 witness, linked to node 0. -/
def iC3 : ShaderInput := { name := "Surface", internal := false, link := some 0 }

/-- C3 (witness): the closure theorem applied to the one-node graph. -/
theorem find_dependencies_closed_witness :
    0 ∈ find_dependencies gC3 ShaderType.Surface 1 [] iC3 ∧
    (find_dependencies gC3 ShaderType.Surface 1 [] iC3).Nodup :=
  have H := find_dependencies_closed gC3 ShaderType.Surface (fun _ => 0) iC3 1
    (fun _ i hi _ _ => absurd hi (List.not_mem_nil i))
    (fun _ _ => Nat.zero_lt_one)
  ⟨H.2.1 0 rfl, H.1⟩

/-- C4: over any closed, acyclic node set, and for every iteration order of
that set, `generate_nodes` emits every node of the set exactly once (a
shared sub-expression such as the diamond's apex is emitted once), and a
node is emitted only after the source of each of its linked, non-skipped
inputs: every split of the emission trace at a node has all that node's
relevant sources in the earlier part. -/
theorem generate_nodes_topological_once (g : ShaderGraph) (t : ShaderType)
    (nodes : List Nat) (rank : Nat → Nat)
    (hclosed : closedB g t nodes = true)
    (hranked : rankedB g t rank nodes = true) :
    ∃ d, generate_nodes g t nodes (nodes.length + 1) [] = some d ∧
      (∀ n ∈ nodes, d.count n = 1) ∧
      (∀ (pre : List Nat) (n : Nat) (post : List Nat),
        d = pre ++ n :: post → sources_in g t n pre) := by
  obtain ⟨d, hd, h1, h2, h3, h4⟩ := gen_loop_main g t nodes rank
    (closedB_spec g t nodes hclosed) (rankedB_spec g t rank nodes hranked)
    (nodes.length + 1) [] List.nodup_nil TopoList.nil (by simp) (by simp)
  refine ⟨d, hd, ?_, topoList_split g t d h2⟩
  intro n hn
  exact List.count_eq_one_of_mem h1 (h4 n hn)

/-- The diamond graph for the C4 witness: node 0 feeds nodes 1 and 2, which
both feed node 3. -/
def gC4 : ShaderGraph := fun n =>
  match n with
  | 0 => { special := SpecialType.plain, inputs := [] }
  | 1 => { special := SpecialType.plain,
           inputs := [{ name := "In", internal := false, link := some 0 }] }
  | 2 => { special := SpecialType.plain,
           inputs := [{ name := "In", internal := false, link := some 0 }] }
  | 3 => { special := SpecialType.plain,
           inputs := [{ name := "A", internal := false, link := some 1 },
                      { name := "B", internal := false, link := some 2 }] }
  | _ => { special := SpecialType.plain, inputs := [] }

/-- C4 (witness): the single-emission and topological-order theorem applied
to the diamond graph with a scrambled iteration order. -/
theorem generate_nodes_topological_once_witness :
    ∃ d, generate_nodes gC4 ShaderType.Surface [3, 2, 0, 1] 5 [] = some d ∧
      (∀ n ∈ [3, 2, 0, 1], d.count n = 1) ∧
      (∀ (pre : List Nat) (n : Nat) (post : List Nat),
        d = pre ++ n :: post → sources_in gC4 ShaderType.Surface n pre) :=
  generate_nodes_topological_once gC4 ShaderType.Surface [3, 2, 0, 1]
    (fun n => n) (by decide) (by decide)

/-- C5: for a closed node set whose linked, non-skipped input relation is
acyclic, the fixpoint loop of `generate_nodes` terminates — a fuel budget
of one pass more than the set's size already suffices, since every pass
that leaves nodes unemitted makes progress — and the result contains
exactly the nodes of the set, each once.  Closedness is part of being a
dependency set: section 4.1 guarantees every `find_dependencies` result is
closed (theorem for C3), and without it a member waiting on an outside
source never becomes ready and the C++ do/while loop spins forever. -/
theorem generate_nodes_fixpoint_terminates (g : ShaderGraph) (t : ShaderType)
    (nodes : List Nat) (rank : Nat → Nat)
    (hclosed : closedB g t nodes = true)
    (hranked : rankedB g t rank nodes = true) :
    ∃ d, generate_nodes g t nodes (nodes.length + 1) [] = some d ∧
      (∀ n, n ∈ d ↔ n ∈ nodes) ∧ d.Nodup := by
  obtain ⟨d, hd, h1, h2, h3, h4⟩ := gen_loop_main g t nodes rank
    (closedB_spec g t nodes hclosed) (rankedB_spec g t rank nodes hranked)
    (nodes.length + 1) [] List.nodup_nil TopoList.nil (by simp) (by simp)
  exact ⟨d, hd, fun n => ⟨fun h => h3 n h, fun h => h4 n h⟩, h1⟩

/-- The diamond graph again, owned by the C5 witness. -/
def gC5 : ShaderGraph := fun n =>
  match n with
  | 0 => { special := SpecialType.plain, inputs := [] }
  | 1 => { special := SpecialType.plain,
           inputs := [{ name := "In", internal := false, link := some 0 }] }
  | 2 => { special := SpecialType.plain,
           inputs := [{ name := "In", internal := false, link := some 0 }] }
  | 3 => { special := SpecialType.plain,
           inputs := [{ name := "A", internal := false, link := some 1 },
                      { name := "B", internal := false, link := some 2 }] }
  | _ => { special := SpecialType.plain, inputs := [] }

/-- C5 (witness): the termination theorem applied to the diamond graph with
another scrambled iteration order. -/
theorem generate_nodes_fixpoint_terminates_witness :
    ∃ d, generate_nodes gC5 ShaderType.Surface [0, 3, 2, 1] 5 [] = some d ∧
      (∀ n, n ∈ d ↔ n ∈ [0, 3, 2, 1]) ∧ d.Nodup :=
  generate_nodes_fixpoint_terminates gC5 ShaderType.Surface [0, 3, 2, 1]
    (fun n => n) (by decide) (by decide)

/-! Shader compilation driver (`OSLCompiler::compile`, osl.cpp lines
1161-1223, with `compile_type` lines 1120-1159).  The embedding keeps the
fields of `Shader` (shader.h lines 116-142) that `compile` reads or
writes.  A produced `OSL::ShaderGroupRef` is opaque (built by the external
shading system); a reference is modelled as `some t` when `compile_type t`
produced it and `none` for the empty `ShaderGroupRef()`.  `compile` is
verified for shaders that have a graph: with a NULL graph the source
dereferences NULL (computing `has_bump` and calling `finalize`), so the
dead `graph &&` conjuncts of the branch conditions are always true here.
`ShaderGraph::finalize` (graph.cpp, outside the reviewed sources) may
rewrite the graph before the per-context branches re-read the output's
links, so its effect on the link statuses is a function parameter `fin`;
the `has_bump` decision is taken from the pre-finalize links, as in the
source.  The capability-flag side effects of `compile_type` (the OR-ing
in `generate_nodes` lines 1090-1111 and `OSLCompiler::add` lines 786-815,
driven by per-node feature predicates living outside the reviewed
sources) are abstracted by a `NodeFeatureSummary` per context: the OR
over the emitted nodes of each feature predicate.  The second component
of the result lists the `compile_type` calls made, in order. -/

/-- The `DisplacementMethod` enum of shader.h. -/
inductive DisplacementMethod where
  | DISPLACE_BUMP
  | DISPLACE_TRUE
  | DISPLACE_BOTH
deriving DecidableEq, Repr

/-- Link status of the Output node's three context inputs
(`output->input("Surface")->link` and friends). -/
structure OutputLinks where
  surface : Bool
  volume : Bool
  displacement : Bool
deriving DecidableEq, Repr

/-- OR-summary over the nodes emitted by one `compile_type` call of the
per-node feature predicates consulted there. -/
structure NodeFeatureSummary where
  emission : Bool := false
  transparent : Bool := false
  raytrace : Bool := false
  spatial_varying : Bool := false
  bssrdf : Bool := false
  bssrdf_bump : Bool := false
  bump : Bool := false
  attribute_dependency : Bool := false
  integrator_dependency : Bool := false
deriving DecidableEq, Repr

/-- The fields of `Shader` read or written by `OSLCompiler::compile`. -/
structure ShaderState where
  modified : Bool
  reference_count : Nat
  links : OutputLinks
  displacement_method : DisplacementMethod
  has_surface : Bool
  has_surface_emission : Bool
  has_surface_transparent : Bool
  has_surface_raytrace : Bool
  has_surface_bssrdf : Bool
  has_bump : Bool
  has_bssrdf_bump : Bool
  has_volume : Bool
  has_displacement : Bool
  has_surface_spatial_varying : Bool
  has_volume_spatial_varying : Bool
  has_volume_attribute_dependency : Bool
  has_integrator_dependency : Bool
  osl_surface_ref : Option ShaderType
  osl_surface_bump_ref : Option ShaderType
  osl_volume_ref : Option ShaderType
  osl_displacement_ref : Option ShaderType
deriving DecidableEq, Repr

/-- Flag side effects of one `compile_type` call for context `t` with
emitted-node feature summary `s`: the integrator-dependency OR happens in
every context (`OSLCompiler::add` line 813), the surface and volume flag
blocks only in their contexts. -/
def apply_compile_type (t : ShaderType) (s : NodeFeatureSummary)
    (sh : ShaderState) : ShaderState :=
  let sh := { sh with has_integrator_dependency :=
    sh.has_integrator_dependency || s.integrator_dependency }
  match t with
  | ShaderType.Surface =>
    { sh with
      has_surface_emission := sh.has_surface_emission || s.emission,
      has_surface_transparent := sh.has_surface_transparent || s.transparent,
      has_surface_raytrace := sh.has_surface_raytrace || s.raytrace,
      has_surface_spatial_varying :=
        sh.has_surface_spatial_varying || s.spatial_varying,
      has_surface_bssrdf := sh.has_surface_bssrdf || s.bssrdf,
      has_bssrdf_bump := sh.has_bssrdf_bump || s.bssrdf_bump,
      has_bump := sh.has_bump || s.bump }
  | ShaderType.Volume =>
    { sh with
      has_volume_spatial_varying :=
        sh.has_volume_spatial_varying || s.spatial_varying,
      has_volume_attribute_dependency :=
        sh.has_volume_attribute_dependency || s.attribute_dependency }
  | _ => sh

/-- Embedding of `OSLCompiler::compile`: a no-op for an unmodified shader;
otherwise compute `has_bump` from the pre-finalize links, finalize
(`fin`), reset the capability flags, and compile each context whose
Output input is linked on a referenced shader, storing a group reference
or the empty reference. -/
def OSLCompiler.compile (fin : OutputLinks → OutputLinks)
    (sums : ShaderType → NodeFeatureSummary) (sh : ShaderState) :
    ShaderState × List ShaderType :=
  if sh.modified then
    let pre := sh.links
    let has_bump := (sh.displacement_method != DisplacementMethod.DISPLACE_TRUE) &&
      pre.surface && pre.displacement
    let post := fin pre
    let sh0 : ShaderState :=
      { sh with
        links := post,
        has_surface := false,
        has_surface_emission := false,
        has_surface_transparent := false,
        has_surface_bssrdf := false,
        has_bump := has_bump,
        has_bssrdf_bump := has_bump,
        has_volume := false,
        has_displacement := false,
        has_surface_spatial_varying := false,
        has_volume_spatial_varying := false,
        has_volume_attribute_dependency := false,
        has_integrator_dependency := false }
    let sr : ShaderState × List ShaderType :=
      if (sh0.reference_count != 0) && post.surface then
        let s1 := apply_compile_type ShaderType.Surface (sums ShaderType.Surface) sh0
        let s1 := { s1 with osl_surface_ref := some ShaderType.Surface }
        if has_bump then
          let s2 := apply_compile_type ShaderType.Bump (sums ShaderType.Bump) s1
          let s2 := { s2 with osl_surface_bump_ref := some ShaderType.Bump }
          ({ s2 with has_surface := true },
           [ShaderType.Surface, ShaderType.Bump])
        else
          ({ s1 with osl_surface_bump_ref := none, has_surface := true },
           [ShaderType.Surface])
      else
        ({ sh0 with osl_surface_ref := none, osl_surface_bump_ref := none }, [])
    let vr : ShaderState × List ShaderType :=
      if (sr.1.reference_count != 0) && post.volume then
        let s1 := apply_compile_type ShaderType.Volume (sums ShaderType.Volume) sr.1
        let s1 := { s1 with osl_volume_ref := some ShaderType.Volume }
        ({ s1 with has_volume := true },
         sr.2 ++ [ShaderType.Volume])
      else
        ({ sr.1 with osl_volume_ref := none }, sr.2)
    if (vr.1.reference_count != 0) && post.displacement then
      let s1 := apply_compile_type ShaderType.Displacement
        (sums ShaderType.Displacement) vr.1
      let s1 := { s1 with osl_displacement_ref := some ShaderType.Displacement }
      ({ s1 with has_displacement := true },
       vr.2 ++ [ShaderType.Displacement])
    else
      ({ vr.1 with osl_displacement_ref := none }, vr.2)
  else (sh, [])

/-- A shader state with all capability flags clear and no programs, used as
the base of the concrete compile scenarios. -/
def blankShader : ShaderState :=
  { modified := true, reference_count := 1,
    links := { surface := false, volume := false, displacement := false },
    displacement_method := DisplacementMethod.DISPLACE_BUMP,
    has_surface := false, has_surface_emission := false,
    has_surface_transparent := false, has_surface_raytrace := false,
    has_surface_bssrdf := false, has_bump := false, has_bssrdf_bump := false,
    has_volume := false, has_displacement := false,
    has_surface_spatial_varying := false, has_volume_spatial_varying := false,
    has_volume_attribute_dependency := false,
    has_integrator_dependency := false,
    osl_surface_ref := none, osl_surface_bump_ref := none,
    osl_volume_ref := none, osl_displacement_ref := none }

/-- The C2 scenario: a modified, referenced shader whose Output node has a
link into Displacement only, Surface unlinked, displacement method Bump. -/
def shC2 : ShaderState :=
  { blankShader with
    links := { surface := false, volume := false, displacement := true } }

/-- C2 (counterexample): on the claim's scenario (Displacement linked only,
Surface unlinked, method Bump) the code does not behave as claimed: no
bump program is produced (`osl_surface_bump_ref` stays empty and no
Bump-context `compile_type` call is made), `has_bump` is false (the source
computes it as Surface-linked AND Displacement-linked), and
`has_displacement` is true (the Displacement context is compiled) — the
claim demands a bump program, `has_bump = true` and
`has_displacement = false`. -/
theorem compile_bump_without_displacement_cex :
    (OSLCompiler.compile id (fun _ => {}) shC2).1.osl_surface_bump_ref = none ∧
    (OSLCompiler.compile id (fun _ => {}) shC2).2 = [ShaderType.Displacement] ∧
    ¬ ((OSLCompiler.compile id (fun _ => {}) shC2).1.has_bump = true ∧
       (OSLCompiler.compile id (fun _ => {}) shC2).1.has_displacement = false) := by
  refine ⟨by decide, by decide, ?_⟩
  intro h
  exact absurd h.1 (by decide)

/-- C2 (amended): for a modified, referenced shader whose graph links the
Output's Displacement input only (Surface unlinked, also after graph
finalization) with displacement method Bump, `compile` produces no surface
and no bump program (`osl_surface_ref` and `osl_surface_bump_ref` empty,
`has_surface = false`, no Surface or Bump `compile_type` call),
`has_bump = false` — the source requires both Surface and Displacement
links for a bump pass — and the Displacement context is compiled:
`osl_displacement_ref` holds the displacement group and
`has_displacement = true`. -/
theorem compile_displacement_only_bump_method (fin : OutputLinks → OutputLinks)
    (sums : ShaderType → NodeFeatureSummary) (sh : ShaderState)
    (hmod : sh.modified = true)
    (href : sh.reference_count ≠ 0)
    (hmethod : sh.displacement_method = DisplacementMethod.DISPLACE_BUMP)
    (hsurf : sh.links.surface = false)
    (hdisp : sh.links.displacement = true)
    (hfs : (fin sh.links).surface = false)
    (hfd : (fin sh.links).displacement = true) :
    (OSLCompiler.compile fin sums sh).1.osl_surface_ref = none ∧
    (OSLCompiler.compile fin sums sh).1.has_surface = false ∧
    (OSLCompiler.compile fin sums sh).1.osl_surface_bump_ref = none ∧
    (OSLCompiler.compile fin sums sh).1.has_bump = false ∧
    (OSLCompiler.compile fin sums sh).1.osl_displacement_ref =
      some ShaderType.Displacement ∧
    (OSLCompiler.compile fin sums sh).1.has_displacement = true ∧
    ShaderType.Surface ∉ (OSLCompiler.compile fin sums sh).2 ∧
    ShaderType.Bump ∉ (OSLCompiler.compile fin sums sh).2 := by
  have hrefb : (sh.reference_count != 0) = true := by simpa using href
  cases hv : (fin sh.links).volume with
  | false =>
    simp +decide [OSLCompiler.compile, apply_compile_type, hmod, hrefb,
      hsurf, hdisp, hfs, hfd, hv]
  | true =>
    simp +decide [OSLCompiler.compile, apply_compile_type, hmod, hrefb,
      hsurf, hdisp, hfs, hfd, hv]

/-- C2 (witness for the amended claim): the theorem applied to the concrete
Displacement-only shader `shC2` with identity finalization. -/
theorem compile_displacement_only_bump_method_witness :
    (OSLCompiler.compile id (fun _ => {}) shC2).1.has_bump = false ∧
    (OSLCompiler.compile id (fun _ => {}) shC2).1.has_displacement = true ∧
    (OSLCompiler.compile id (fun _ => {}) shC2).1.osl_displacement_ref =
      some ShaderType.Displacement :=
  have h := compile_displacement_only_bump_method id (fun _ => {}) shC2
    rfl (by decide) rfl rfl rfl rfl rfl
  ⟨h.2.2.2.1, h.2.2.2.2.2.1, h.2.2.2.2.1⟩

/-- The C6 counterexample state: a modified shader with the Output's
Surface input linked but a reference count of zero. -/
def shC6 : ShaderState :=
  { blankShader with
    reference_count := 0,
    links := { surface := true, volume := false, displacement := false } }

/-- C6 (counterexample): the claim's "if and only if the matching input
socket is linked" fails for an unreferenced shader: `shC6` is modified,
has a graph whose Output Surface input is linked, yet `compile` stores the
empty reference and leaves `has_surface` false because the branch also
requires `shader->reference_count()`. -/
theorem compile_linked_unreferenced_cex :
    shC6.links.surface = true ∧
    (OSLCompiler.compile id (fun _ => {}) shC6).1.has_surface = false ∧
    (OSLCompiler.compile id (fun _ => {}) shC6).1.osl_surface_ref = none := by
  refine ⟨by decide, by decide, by decide⟩

/-- C6 (amended): after `compile` on a modified, *referenced*
(`reference_count() != 0`) shader with a graph, each of the Surface,
Volume and Displacement contexts has a program group stored in its
`osl_*_ref` and its `has_*` flag set exactly when the matching Output
input is linked (on the finalized graph); an unlinked context receives the
empty reference and a false flag. -/
theorem compile_programs_iff_linked (fin : OutputLinks → OutputLinks)
    (sums : ShaderType → NodeFeatureSummary) (sh : ShaderState)
    (hmod : sh.modified = true)
    (href : sh.reference_count ≠ 0) :
    (OSLCompiler.compile fin sums sh).1.has_surface = (fin sh.links).surface ∧
    (OSLCompiler.compile fin sums sh).1.osl_surface_ref =
      (if (fin sh.links).surface then some ShaderType.Surface else none) ∧
    (OSLCompiler.compile fin sums sh).1.has_volume = (fin sh.links).volume ∧
    (OSLCompiler.compile fin sums sh).1.osl_volume_ref =
      (if (fin sh.links).volume then some ShaderType.Volume else none) ∧
    (OSLCompiler.compile fin sums sh).1.has_displacement =
      (fin sh.links).displacement ∧
    (OSLCompiler.compile fin sums sh).1.osl_displacement_ref =
      (if (fin sh.links).displacement then some ShaderType.Displacement
       else none) := by
  have hrefb : (sh.reference_count != 0) = true := by simpa using href
  cases hs : (fin sh.links).surface <;> cases hv : (fin sh.links).volume <;>
    cases hd : (fin sh.links).displacement <;>
    cases hb : ((sh.displacement_method != DisplacementMethod.DISPLACE_TRUE) &&
      sh.links.surface && sh.links.displacement) <;>
    simp [OSLCompiler.compile, apply_compile_type, hmod, hrefb, hs, hv, hd, hb]

/-- The C6 witness state: a modified, referenced shader with Surface and
Volume linked and Displacement unlinked. -/
def shC6w : ShaderState :=
  { blankShader with
    links := { surface := true, volume := true, displacement := false } }

/-- C6 (witness for the amended claim): the theorem applied to `shC6w`. -/
theorem compile_programs_iff_linked_witness :
    (OSLCompiler.compile id (fun _ => {}) shC6w).1.has_surface = true ∧
    (OSLCompiler.compile id (fun _ => {}) shC6w).1.has_volume = true ∧
    (OSLCompiler.compile id (fun _ => {}) shC6w).1.has_displacement = false ∧
    (OSLCompiler.compile id (fun _ => {}) shC6w).1.osl_displacement_ref = none :=
  have h := compile_programs_iff_linked id (fun _ => {}) shC6w rfl (by decide)
  ⟨h.1, h.2.2.1, h.2.2.2.2.1, h.2.2.2.2.2⟩

/-- C10: `compile` on a shader whose `is_modified()` is false is a complete
no-op: the whole body is guarded by the modified test, so every field of
the shader is left unchanged and no `compile_type` (shading-system
compilation) call is made. -/
theorem compile_unmodified_noop (fin : OutputLinks → OutputLinks)
    (sums : ShaderType → NodeFeatureSummary) (sh : ShaderState)
    (h : sh.modified = false) :
    OSLCompiler.compile fin sums sh = (sh, []) := by
  simp [OSLCompiler.compile, h]

/-- The C10 witness state: an unmodified shader with programs and flags
already present. -/
def shC10 : ShaderState :=
  { blankShader with
    modified := false,
    links := { surface := true, volume := false, displacement := true },
    has_surface := true, has_bump := true,
    osl_surface_ref := some ShaderType.Surface,
    osl_surface_bump_ref := some ShaderType.Bump,
    osl_displacement_ref := some ShaderType.Displacement }

/-- C10 (witness): the no-op theorem applied to the concrete unmodified
shader `shC10`. -/
theorem compile_unmodified_noop_witness :
    OSLCompiler.compile id (fun _ => {}) shC10 = (shC10, []) :=
  compile_unmodified_noop id (fun _ => {}) shC10 rfl

end CyclesOSL
